import Mathlib

/-!
Verification development for the packagegraph ontology collectors.

We give a shallow embedding of the collection pipeline: RDF nodes and triples,
the chunked collection coordinator (`BaseCollector.collect_parallel`), the
Debian collector (stanza parsing, dependency-string parsing, package and
contents emission, package map) and the RPM collector (primary-metadata
normalization, package map, chunk emission).

Modelling conventions:
 - An rdflib `Graph` is a set of triples; we model it as a `List Triple` built
   by appending (each `g.add(...)` appends one triple) and state all
   properties in terms of membership, which coincides with set semantics.
 - `BNode()` produces globally fresh blank nodes; we model freshness with
   deterministic indices `Node.bnode chunk idx`.
 - Python strings are modelled as Lean `String` at the character level; the
   percent-encoding `urllib.parse.quote` is modelled per character, which
   coincides with Python for ASCII input.
 - Network fetches and decompression are external collaborators; their results
   enter the model as plain values (`String` contents, `Option` for a fetch
   that may fail with a caught HTTP error).
-/

/-- An RDF node: a URI reference, a literal, or a blank node. Blank nodes are
identified by a (chunk, index) pair standing for rdflib's fresh `BNode()`. -/
inductive Node where
  | uri (s : String)
  | lit (s : String)
  | bnode (chunk : Nat) (idx : Nat)
deriving DecidableEq, Repr

/-- One RDF triple: subject, predicate, object. -/
abbrev Triple := Node × Node × Node

/-- An rdflib graph, modelled as the list of triples added so far. -/
abbrev Graph := List Triple

/-- The rdf:type predicate used by `RDF.type` in the source. -/
def rdfType : Node := Node.uri "http://www.w3.org/1999/02/22-rdf-syntax-ns#type"

/-- The owl:sameAs predicate used by `OWL.sameAs` in the source. -/
def owlSameAs : Node := Node.uri "http://www.w3.org/2002/07/owl#sameAs"

/-! ## Python string primitives

All Python string operations used by the collectors are modelled by
structurally recursive functions over the character list of a `String`, so
that every definition evaluates inside the kernel. -/

/-- Split a character list at every occurrence of `sep` (Python
`s.split(sep)` for a one-character separator): always at least one field,
empty fields between adjacent separators. -/
def splitOnChar (sep : Char) : List Char → List (List Char)
  | [] => [[]]
  | c :: rest =>
    let r := splitOnChar sep rest
    if c = sep then [] :: r
    else (c :: r.headD []) :: r.tail

/-- Split a character list at every non-overlapping occurrence of the
two-character separator `[a, b]` (Python `s.split(a + b)`). -/
def splitOnPair (a b : Char) : List Char → List (List Char)
  | [] => [[]]
  | [c] => [[c]]
  | c :: d :: rest =>
    if c = a ∧ d = b then [] :: splitOnPair a b rest
    else
      let r := splitOnPair a b (d :: rest)
      (c :: r.headD []) :: r.tail

/-- Split a character list at every character satisfying `p`. -/
def splitPred (p : Char → Bool) : List Char → List (List Char)
  | [] => [[]]
  | c :: rest =>
    let r := splitPred p rest
    if p c then [] :: r
    else (c :: r.headD []) :: r.tail

/-- Join character lists with a one-character separator (used to model
`sep.join` in Python when re-assembling the remainder of `split(sep, 1)`). -/
def intercalateChar (sep : Char) : List (List Char) → List Char
  | [] => []
  | [x] => x
  | x :: y :: rest => x ++ sep :: intercalateChar sep (y :: rest)

/-- Python `str.strip()` (ASCII whitespace model). -/
def trimChars (cs : List Char) : List Char :=
  ((cs.dropWhile Char.isWhitespace).reverse.dropWhile Char.isWhitespace).reverse

/-- Python `str.strip()` on strings. -/
def py_strip (s : String) : String := ⟨trimChars s.toList⟩

/-- Python `s.split(sep)` for a one-character separator, on strings. -/
def py_split_char (sep : Char) (s : String) : List String :=
  (splitOnChar sep s.toList).map (fun cs => ⟨cs⟩)

/-- Characters `urllib.parse.quote` leaves unencoded with the default
`safe='/'`: ASCII letters, digits, `_ . - ~` and `/`. -/
def pyQuoteSafe (c : Char) : Bool :=
  c.isAlpha || c.isDigit || c = '_' || c = '.' || c = '-' || c = '~' || c = '/'

/-- Uppercase hexadecimal digit for `n < 16`. -/
def hexDigit (n : Nat) : Char :=
  (['0', '1', '2', '3', '4', '5', '6', '7', '8', '9', 'A', 'B', 'C', 'D', 'E', 'F']).getD n '0'

/-- Percent-encoding of a single character: kept if safe, else `%XX`.
Matches Python's `quote` byte-for-byte on ASCII characters. -/
def pyQuoteChar (c : Char) : List Char :=
  if pyQuoteSafe c then [c]
  else ['%', hexDigit (c.toNat / 16), hexDigit (c.toNat % 16)]

/-- `urllib.parse.quote(s)` with the default `safe='/'` (ASCII model). -/
def pyQuote (s : String) : String :=
  ⟨s.toList.foldr (fun c acc => pyQuoteChar c ++ acc) []⟩

/-- Python `str.split()` with no argument: split on whitespace runs,
dropping empty fields. -/
def split_whitespace (s : String) : List String :=
  ((splitPred Char.isWhitespace s.toList).map (fun cs => (⟨cs⟩ : String))).filter
    (fun t => t ≠ "")

/-- Python `str.splitlines()` for newline-separated text (ASCII model):
split on the newline character, without a trailing empty line. -/
def py_splitlines (s : String) : List String :=
  let l := py_split_char '\n' s
  if l.getLast? = some "" then l.dropLast else l

/-- Python `line.split(':', 1)`: the key before the first colon and the
remainder after it. -/
def splitColonOnce (line : String) : String × String :=
  match splitOnChar ':' line.toList with
  | [] => (line, "")
  | k :: rest => (⟨k⟩, ⟨intercalateChar ':' rest⟩)

/-! ## Python dicts

A Python `dict` keeps first-insertion key order and overwrites values in
place; we model it as an association list with unique keys maintained by
`dictInsert`, and `dict[k]` / `k in dict` as `dictFind` / `dictContains`. -/

/-- A Python string-to-string dict as an association list. -/
abbrev Dict := List (String × String)

/-- Python `d[k] = v`: overwrite in place if the key exists, else append. -/
def dictInsert (m : Dict) (k v : String) : Dict :=
  if m.any (fun p => p.1 == k) then
    m.map (fun p => if p.1 == k then (k, v) else p)
  else m ++ [(k, v)]

/-- Build a dict from a list of key-value pairs (later pairs overwrite). -/
def dictOf (pairs : List (String × String)) : Dict :=
  pairs.foldl (fun m p => dictInsert m p.1 p.2) []

/-- Python `d.get(k)` / `d[k]`. -/
def dictFind (m : Dict) (k : String) : Option String :=
  (m.find? (fun p => p.1 == k)).map (·.2)

/-- Python `k in d`. -/
def dictContains (m : Dict) (k : String) : Bool :=
  m.any (fun p => p.1 == k)

/-! ## Package maps

`pkg_map` in both collectors is a Python dict from a key to a `URIRef`.
Assignments `pkg_map[k] = uri` overwrite earlier ones, so lookup returns the
value of the last assignment with that key; we record assignments in order and
look up the last matching one. -/

/-- A package map: the sequence of `pkg_map[key] = uri` assignments. -/
abbrev PkgMap := List (String × Node)

/-- Dict lookup on a package map: the last assignment wins. -/
def pkgMapFind (m : PkgMap) (k : String) : Option Node :=
  (m.reverse.find? (fun p => p.1 == k)).map (·.2)

/-! ## BaseCollector: the chunked collection coordinator -/

namespace BaseCollector

/-- The chunk list `[packages[i:i+chunk_size] for i in range(0, len(packages), chunk_size)]`. -/
def chunksOf {α : Type} (chunk_size : Nat) (packages : List α) : List (List α) :=
  (List.range ((packages.length + chunk_size - 1) / chunk_size)).map
    (fun i => (packages.drop (i * chunk_size)).take chunk_size)

/-- `BaseCollector.collect_parallel(self, packages, process_chunk_func)`.

If parallel execution is disabled or there are fewer packages than
`chunk_size`, the method returns `len(packages)` immediately without invoking
`process_chunk_func` and without touching the graph (the source comments:
"The caller should handle this case separately"). Otherwise it splits the
input into chunks, runs the chunk processor on each chunk with its index, and
parses every resulting partial graph back into the main graph in chunk order. -/
def collect_parallel {α : Type} (parallel : Bool) (chunk_size : Nat) (g : Graph)
    (packages : List α) (process_chunk_func : List α → Nat → Graph) : Graph × Nat :=
  if !parallel || packages.length < chunk_size then
    (g, packages.length)
  else
    let chunks := chunksOf chunk_size packages
    let temp_files := chunks.enum.map (fun ci => process_chunk_func ci.2 ci.1)
    (temp_files.foldl (fun acc t => acc ++ t) g, packages.length)

end BaseCollector

/-! ## DebianCollector -/

namespace DebianCollector

/-- The Debian ontology namespace constant `DEB`. -/
def DEB : String := "http://packagegraph.github.io/ontology/debian#"

/-- `URIRef(f"{DEB}{x}")`. -/
def debURI (x : String) : Node := Node.uri (DEB ++ x)

/-- The package node identity: `URIRef(f"{DEB}{quote(pkg_id)}")` with
`pkg_id = f"{pkg_name}-{pkg_version}"`. -/
def pkg_uri (pkg_name pkg_version : String) : Node :=
  debURI (pyQuote (pkg_name ++ "-" ++ pkg_version))

/-! ### Dependency grammar parser (`_parse_dependency_string`) -/

/-- Characters matched by the regex class `[\w.-]` (ASCII model of `\w`). -/
def isWordChar (c : Char) : Bool :=
  c.isAlphanum || c = '_' || c = '.' || c = '-'

/-- `re.match` of the pattern `([\w.-]+)(?:\s+\(([^)]+)\))?` against `s`:
a non-empty maximal word prefix as group 1, then optionally at least one
whitespace character, a parenthesized non-empty constraint as group 2.
`None` when no word prefix exists. -/
def match_dep_pattern (s : String) : Option (String × Option String) :=
  let cs := s.toList
  let name := cs.takeWhile isWordChar
  if name.isEmpty then none
  else
    let rest := cs.dropWhile isWordChar
    let ws := rest.takeWhile (fun c => c.isWhitespace)
    let rest2 := rest.dropWhile (fun c => c.isWhitespace)
    let constraint :=
      if ws.isEmpty then none
      else
        match rest2 with
        | '(' :: tail =>
          let inner := tail.takeWhile (fun c => c ≠ ')')
          let after := tail.dropWhile (fun c => c ≠ ')')
          if inner.isEmpty then none
          else
            match after with
            | ')' :: _ => some ⟨inner⟩
            | _ => none
        | _ => none
    some (⟨name⟩, constraint)

/-- The first alternative of one comma-separated clause:
`[d.strip() for d in part.split('|')][0]`. -/
def first_alternative (part : String) : String :=
  ((py_split_char '|' part).map py_strip).headD ""

/-- `_parse_dependency_string(dep_string)`: split on commas, keep only the
first `|`-alternative of each clause, match it against the dependency
pattern, and append `(match.group(1), match.group(2))` on success. -/
def parse_dependency_string (dep_string : String) : List (String × Option String) :=
  (py_split_char ',' dep_string).foldl
    (fun dependencies part =>
      dependencies ++
        (match match_dep_pattern (first_alternative part) with
         | some d => [d]
         | none => []))
    []

/-! ### Normalization (`_get_packages_data`) -/

/-- Parse one stanza into its field dict:
`{k.strip(): v.strip() for k, v in (line.split(':', 1) for line in pkg_info.strip().split('\n') if ':' in line)}`. -/
def parse_stanza (pkg_info : String) : Dict :=
  dictOf
    (((py_split_char '\n' (py_strip pkg_info)).filter
        (fun line => line.toList.contains ':')).map
      (fun line =>
        let kv := splitColonOnce line
        (py_strip kv.1, py_strip kv.2)))

/-- `_get_packages_data`: split the decompressed `Packages` content into
stanzas on blank lines, parse each into a dict, and keep only the entries
that have both a `Package` and a `Version` field. -/
def get_packages_data (content : String) : List Dict :=
  (((splitOnPair '\n' '\n' (py_strip content).toList).map
      (fun cs => parse_stanza ⟨cs⟩)).filter
    (fun pkg_data => dictContains pkg_data "Package" && dictContains pkg_data "Version"))

/-- `_build_package_map`: record `pkg_map[pkg_name] = URIRef(DEB + quote(pkg_name + "-" + pkg_version))`
for every entry, in input order (a Python dict assignment: the last entry
with a given name wins on lookup). -/
def build_package_map (packages_data : List Dict) : PkgMap :=
  packages_data.map (fun pkg_data =>
    ((dictFind pkg_data "Package").getD "",
      pkg_uri ((dictFind pkg_data "Package").getD "") ((dictFind pkg_data "Version").getD "")))

/-! ### Graph emission -/

/-- `_add_distribution_metadata`: the distribution/suite triples added to the
main graph before package processing. -/
def add_distribution_metadata (g : Graph) (codename suite origin : String) : Graph :=
  let dist_uri := debURI origin
  let suite_uri := debURI suite
  let codename_uri := debURI codename
  let g1 := g ++
    [(dist_uri, rdfType, debURI "Distribution"),
     (codename_uri, rdfType, debURI "Suite"),
     (codename_uri, debURI "partOfDistribution", dist_uri)]
  if suite ≠ codename then g1 ++ [(suite_uri, owlSameAs, codename_uri)] else g1

/-- Python `str.lower()` (ASCII model). -/
def py_lower (s : String) : String := ⟨s.toList.map Char.toLower⟩

/-- Python `key.lower().replace('-', '')`: the normalized flat property name
of a stanza field. -/
def prop_name_of (key : String) : String :=
  ⟨(key.toList.map Char.toLower).filter (fun c => c ≠ '-')⟩

/-- The generic flat-attribute loop of `_process_packages_single_threaded`
and `_process_package_chunk`: for every field of the stanza dict whose
normalized property name is not `package` or `version`, add
`(pkg_uri, DEB + prop_name, Literal(value))`. -/
def flat_attribute_triples (pkgUri : Node) (pkg_data : Dict) : Graph :=
  pkg_data.foldl
    (fun g kv =>
      g ++
        (if prop_name_of kv.1 ≠ "package" ∧ prop_name_of kv.1 ≠ "version" then
          [(pkgUri, debURI (prop_name_of kv.1), Node.lit kv.2)]
        else []))
    []

/-- The dependency fields given structured emission by the single-threaded
and chunked package processors. -/
def dep_keys : List String := ["Depends", "Recommends", "Suggests", "Conflicts", "Replaces", "Provides"]

/-- The structured-dependency loop of `_process_packages_single_threaded` and
`_process_package_chunk`: for each dependency field present, parse it and add
one blank dependency node per parsed dependency, with `packageName` and an
optional `versionConstraint`. The blank nodes `BNode()` are modelled as
`Node.bnode b i` with `i` counting dependencies within this package. -/
def dependency_triples (pkgUri : Node) (pkg_data : Dict) (b : Nat) : Graph :=
  (dep_keys.foldl
    (fun (acc : Graph × Nat) dep_key =>
      match dictFind pkg_data dep_key with
      | none => acc
      | some s =>
        (parse_dependency_string s).foldl
          (fun (acc2 : Graph × Nat) dep =>
            let dep_bnode := Node.bnode b acc2.2
            let g2 := acc2.1 ++
              [(pkgUri, debURI (py_lower dep_key), dep_bnode),
               (dep_bnode, debURI "packageName", Node.lit dep.1)]
            let g3 :=
              match dep.2 with
              | some vc => g2 ++ [(dep_bnode, debURI "versionConstraint", Node.lit vc)]
              | none => g2
            (g3, acc2.2 + 1))
          acc)
    ([], 0)).1

/-- The triples emitted for one package entry by
`_process_packages_single_threaded` / `_process_package_chunk`: type and
suite triples, the explicit `name` and `version` literals, the generic flat
attributes, then the structured dependencies. `b` tags this package's blank
nodes. -/
def emit_package (codename_uri : Node) (pkg_data : Dict) (b : Nat) : Graph :=
  let pkg_name := (dictFind pkg_data "Package").getD ""
  let pkg_version := (dictFind pkg_data "Version").getD ""
  let u := pkg_uri pkg_name pkg_version
  [(u, rdfType, debURI "DebianPackage"),
   (u, debURI "inSuite", codename_uri),
   (u, debURI "name", Node.lit pkg_name),
   (u, debURI "version", Node.lit pkg_version)]
  ++ flat_attribute_triples u pkg_data
  ++ dependency_triples u pkg_data b

/-- `_process_packages_single_threaded`: emit every package entry directly
into the main graph; returns the graph (the method returns
`len(packages_data)` as its count). -/
def process_packages_single_threaded (g : Graph) (packages_data : List Dict)
    (codename : String) : Graph :=
  (packages_data.foldl
    (fun (acc : Graph × Nat) pkg_data =>
      (acc.1 ++ emit_package (debURI codename) pkg_data acc.2, acc.2 + 1))
    (g, 0)).1

/-- `_process_package_chunk`: the same emission into a fresh chunk graph
(serialized to a temp file in the source; the temp-file round trip hands
these triples back to the coordinator). -/
def process_package_chunk (packages_chunk : List Dict) (_chunk_id : Nat)
    (codename : String) : Graph :=
  (packages_chunk.foldl
    (fun (acc : Graph × Nat) pkg_data =>
      (acc.1 ++ emit_package (debURI codename) pkg_data acc.2, acc.2 + 1))
    ([], 0)).1

/-- `_process_package_chunk_wrapper`: strip the `(pkg_data, codename, suite, origin)`
decoration, taking the codename from the chunk's first element. -/
def process_package_chunk_wrapper (data_chunk : List (Dict × String × String × String))
    (chunk_id : Nat) : Graph :=
  process_package_chunk (data_chunk.map (·.1)) chunk_id
    ((data_chunk.headD ([], "", "", "")).2.1)

/-! ### File-manifest (Contents) linking -/

/-- The triples one Contents line contributes: skip lines with fewer than two
whitespace-separated fields; otherwise, for every comma-separated package
reference in the last field, strip any `section/` prefix and, when the clean
name is in the package map, add a `fileName` triple on the mapped node. -/
def process_contents_line (pkg_map : PkgMap) (line : String) : Graph :=
  let parts := split_whitespace (py_strip line)
  if parts.length < 2 then []
  else
    let file_path := parts.headD ""
    let pkg_names_str := parts.getLastD ""
    (py_split_char ',' pkg_names_str).foldl
      (fun g pkg_name =>
        let clean_pkg_name := (py_split_char '/' pkg_name).getLastD ""
        g ++
          (match pkgMapFind pkg_map clean_pkg_name with
           | some u => [(u, debURI "fileName", Node.lit file_path)]
           | none => []))
      []

/-- `_process_contents_single_threaded`: process every line directly into the
main graph. -/
def process_contents_single_threaded (g : Graph) (lines : List String)
    (pkg_map : PkgMap) : Graph :=
  lines.foldl (fun acc line => acc ++ process_contents_line pkg_map line) g

/-- `_process_contents_chunk`: the same per-line processing into a fresh
chunk graph. -/
def process_contents_chunk (lines_chunk : List String) (_chunk_id : Nat)
    (pkg_map : PkgMap) : Graph :=
  lines_chunk.foldl (fun acc line => acc ++ process_contents_line pkg_map line) []

/-- `_process_contents_chunk_wrapper`: strip the `(line, pkg_map)` decoration,
taking the map from the chunk's first element. -/
def process_contents_chunk_wrapper (data_chunk : List (String × PkgMap))
    (chunk_id : Nat) : Graph :=
  process_contents_chunk (data_chunk.map (·.1)) chunk_id
    ((data_chunk.headD ("", [])).2)

/-! ### The collect() orchestration -/

/-- `_process_contents_parallel`, after the Contents fetch: chooses the
single-threaded or chunked path on the line count. The fetch itself is an
external collaborator; a caught HTTP error is the `none` case handled in
`collect`. -/
def process_contents_body (parallel : Bool) (chunk_size : Nat) (g : Graph)
    (lines : List String) (pkg_map : PkgMap) : Graph :=
  if !parallel || lines.length < chunk_size then
    process_contents_single_threaded g lines pkg_map
  else
    (BaseCollector.collect_parallel parallel chunk_size g
      (lines.map (fun line => (line, pkg_map)))
      process_contents_chunk_wrapper).1

/-- `DebianCollector.collect`, after release resolution: add distribution
metadata, normalize the `Packages` content, process packages single-threaded
or chunked, then link the Contents manifest. `contents` is the outcome of the
manifest fetch: `none` when the download raised an HTTP error (warning only),
`some content` on success. Returns the final graph and `processed_count`. -/
def collect (parallel : Bool) (chunk_size : Nat) (codename suite origin : String)
    (packagesContent : String) (contents : Option String) (g : Graph) : Graph × Nat :=
  let g1 := add_distribution_metadata g codename suite origin
  let packages_data := get_packages_data packagesContent
  let r :=
    if !parallel || packages_data.length < chunk_size then
      (process_packages_single_threaded g1 packages_data codename, packages_data.length)
    else
      BaseCollector.collect_parallel parallel chunk_size g1
        (packages_data.map (fun pkg_data => (pkg_data, codename, suite, origin)))
        process_package_chunk_wrapper
  let pkg_map := build_package_map packages_data
  match contents with
  | none => r
  | some cc =>
    let lines := py_splitlines cc
    (process_contents_body parallel chunk_size r.1 lines pkg_map, r.2)

end DebianCollector

/-! ## RpmCollector -/

namespace RpmCollector

/-- The RPM ontology namespace constant `RPM`. -/
def RPM : String := "http://packagegraph.github.io/ontology/rpm#"

/-- `URIRef(f"{RPM}{x}")`. -/
def rpmURI (x : String) : Node := Node.uri (RPM ++ x)

/-- The `<version ver=... rel=...>` element of one primary-metadata package:
`ElementTree.get` returns the attribute or `None`. -/
structure XmlVersionElem where
  ver : Option String
  rel : Option String
deriving DecidableEq, Repr

/-- One `<rpm:entry>` under `<rpm:requires>`: its `name` and `ver`
attributes, each possibly absent. -/
structure XmlDepEntry where
  name : Option String
  ver : Option String
deriving DecidableEq, Repr

/-- One `<common:package>` element of the primary metadata, as seen through
`ElementTree`: each child lookup (`pkg.find`) may miss (`none`), and a present
text node may itself be empty (`some none`). `formatElem` collects the
`rpm:requires/rpm:entry` children of `<format>` when that element exists. -/
structure XmlPackageElem where
  nameText : Option (Option String)
  versionElem : Option XmlVersionElem
  archText : Option (Option String)
  summaryText : Option (Option String)
  descriptionText : Option (Option String)
  checksumText : Option (Option String)
  formatElem : Option (List XmlDepEntry)
deriving DecidableEq, Repr

/-- One entry of `packages_data` built by `_get_primary_packages_data`: the
Python values are `None`-or-string, modelled as `Option String`. -/
structure RpmPkgData where
  name : Option String
  version : Option String
  release : Option String
  arch : Option String
  summary : Option String
  description : Option String
  pkgid : Option String
  format_element : Option (List XmlDepEntry)
deriving DecidableEq, Repr

/-- The field expression `pkg.find(tag).text if pkg.find(tag) is not None else ''`:
an absent element becomes the empty string, a present element contributes its
text (which is Python `None` for an empty element). -/
def fieldOf (e : Option (Option String)) : Option String :=
  match e with
  | none => some ""
  | some t => t

/-- `_get_primary_packages_data`, after download and XML parsing: every
`<common:package>` element yields one `packages_data` entry; no entry is ever
rejected, and missing elements default to the empty string. -/
def get_primary_packages_data (packages : List XmlPackageElem) : List RpmPkgData :=
  packages.map (fun pkg =>
    { name := fieldOf pkg.nameText
      version := match pkg.versionElem with | none => some "" | some v => v.ver
      release := match pkg.versionElem with | none => some "" | some v => v.rel
      arch := fieldOf pkg.archText
      summary := fieldOf pkg.summaryText
      description := fieldOf pkg.descriptionText
      pkgid := fieldOf pkg.checksumText
      format_element := pkg.formatElem })

/-- Python f-string interpolation of a possibly-`None` value. -/
def pyStr : Option String → String
  | none => "None"
  | some s => s

/-- `f"{name}-{version}-{release}.{arch}"`. -/
def rpm_pkg_id (d : RpmPkgData) : String :=
  pyStr d.name ++ "-" ++ pyStr d.version ++ "-" ++ pyStr d.release ++ "." ++ pyStr d.arch

/-- The RPM package map keys are the raw `pkgid` values (a Python dict can be
keyed by `None`). -/
abbrev RpmPkgMap := List (Option String × Node)

/-- Dict lookup on the RPM package map: the last assignment wins. -/
def rpmMapFind (m : RpmPkgMap) (k : Option String) : Option Node :=
  (m.reverse.find? (fun p => p.1 == k)).map (·.2)

/-- `RpmCollector._build_package_map`: `pkg_map[pkg_data['pkgid']] = URIRef(RPM + quote(pkg_id))`
for every entry, in input order. -/
def build_package_map (packages_data : List RpmPkgData) : RpmPkgMap :=
  packages_data.map (fun d => (d.pkgid, rpmURI (pyQuote (rpm_pkg_id d))))

/-- Python truthiness of a `None`-or-string value. -/
def pyTruthy : Option String → Bool
  | none => false
  | some s => s ≠ ""

/-- `RpmCollector._process_package_chunk`: build a fresh chunk graph with one
`RpmPackage` node per entry (type, name, version, release, arch literals,
conditional summary and description), plus one `requires` blank node per
`rpm:entry` with conditional `dependencyName` / `dependencyVersion`. -/
def process_package_chunk (packages_chunk : List RpmPkgData) (chunk_id : Nat) : Graph :=
  (packages_chunk.foldl
    (fun (acc : Graph × Nat) d =>
      let u := rpmURI (pyQuote (rpm_pkg_id d))
      let g1 := acc.1 ++
        [(u, rdfType, rpmURI "RpmPackage"),
         (u, rpmURI "name", Node.lit (pyStr d.name)),
         (u, rpmURI "version", Node.lit (pyStr d.version)),
         (u, rpmURI "release", Node.lit (pyStr d.release)),
         (u, rpmURI "arch", Node.lit (pyStr d.arch))]
      let g2 := if pyTruthy d.summary then g1 ++ [(u, rpmURI "summary", Node.lit (pyStr d.summary))] else g1
      let g3 := if pyTruthy d.description then g2 ++ [(u, rpmURI "description", Node.lit (pyStr d.description))] else g2
      match d.format_element with
      | none => (g3, acc.2)
      | some entries =>
        entries.foldl
          (fun (a2 : Graph × Nat) dep_entry =>
            let dep_bnode := Node.bnode chunk_id a2.2
            let h1 := a2.1 ++ [(u, rpmURI "requires", dep_bnode)]
            let h2 := if pyTruthy dep_entry.name then
                h1 ++ [(dep_bnode, rpmURI "dependencyName", Node.lit (pyStr dep_entry.name))]
              else h1
            let h3 := if pyTruthy dep_entry.ver then
                h2 ++ [(dep_bnode, rpmURI "dependencyVersion", Node.lit (pyStr dep_entry.ver))]
              else h2
            (h3, a2.2 + 1))
          (g3, acc.2))
    ([], 0)).1

/-- `RpmCollector.collect`'s package phase: it invokes `collect_parallel`
directly on `packages_data` with `_process_package_chunk` and takes the
returned value as `processed_count`, with no single-threaded fallback of its
own. -/
def collect_packages_phase (parallel : Bool) (chunk_size : Nat) (g : Graph)
    (packages_data : List RpmPkgData) : Graph × Nat :=
  BaseCollector.collect_parallel parallel chunk_size g packages_data process_package_chunk

end RpmCollector

/-! ## General lemmas about the emission folds -/

/-- A fold that only appends factors as the initial graph followed by the
per-item contributions. -/
theorem foldl_append_eq {α β : Type} (h : α → List β) :
    ∀ (l : List α) (g : List β),
      l.foldl (fun acc x => acc ++ h x) g = g ++ (l.map h).flatten := by
  intro l
  induction l with
  | nil => intro g; simp
  | cons x xs ih => intro g; simp [ih, List.append_assoc]

/-- A fold that appends per-item contributions while threading an item
counter also factors as the initial graph followed by the contributions. -/
theorem foldl_counter_eq {α : Type} (f : α → Nat → Graph) :
    ∀ (l : List α) (g : Graph) (n : Nat),
      (l.foldl (fun (acc : Graph × Nat) x => (acc.1 ++ f x acc.2, acc.2 + 1)) (g, n)).1
        = g ++ ((l.enumFrom n).map (fun p => f p.2 p.1)).flatten := by
  intro l
  induction l with
  | nil => intro g n; simp
  | cons x xs ih => intro g n; simp [ih, List.append_assoc]

/-! ## Percent-encoding is invertible on ASCII input -/

/-- Value of an uppercase hexadecimal digit character. -/
def hexVal (c : Char) : Nat :=
  if c = '0' then 0 else if c = '1' then 1 else if c = '2' then 2
  else if c = '3' then 3 else if c = '4' then 4 else if c = '5' then 5
  else if c = '6' then 6 else if c = '7' then 7 else if c = '8' then 8
  else if c = '9' then 9 else if c = 'A' then 10 else if c = 'B' then 11
  else if c = 'C' then 12 else if c = 'D' then 13 else if c = 'E' then 14
  else 15

/-- Decoder for the output of `pyQuoteChar`-encoding: a `%` opens a
two-digit escape, every other character stands for itself. -/
def pyUnquoteChars : List Char → List Char
  | [] => []
  | '%' :: h1 :: h2 :: rest => Char.ofNat (16 * hexVal h1 + hexVal h2) :: pyUnquoteChars rest
  | c :: rest => c :: pyUnquoteChars rest

theorem hexVal_hexDigit (n : Nat) (h : n < 16) : hexVal (hexDigit n) = n := by
  interval_cases n <;> rfl

theorem percent_not_safe : pyQuoteSafe '%' = false := by decide

theorem pyUnquoteChars_cons_of_ne (c : Char) (rest : List Char) (hc : c ≠ '%') :
    pyUnquoteChars (c :: rest) = c :: pyUnquoteChars rest := by
  conv_lhs => rw [pyUnquoteChars.eq_def]
  split <;> simp_all

theorem pyUnquoteChars_quoteChar (c : Char) (hc : c.toNat < 128) (rest : List Char) :
    pyUnquoteChars (pyQuoteChar c ++ rest) = c :: pyUnquoteChars rest := by
  unfold pyQuoteChar
  split
  · rename_i hsafe
    have hne : c ≠ '%' := by
      intro h
      rw [h, percent_not_safe] at hsafe
      exact Bool.false_ne_true hsafe
    simpa using pyUnquoteChars_cons_of_ne c rest hne
  · have hdiv : c.toNat / 16 < 16 := Nat.div_lt_of_lt_mul (by omega)
    have hmod : c.toNat % 16 < 16 := Nat.mod_lt _ (by omega)
    simp only [List.cons_append, List.nil_append, pyUnquoteChars,
      hexVal_hexDigit _ hdiv, hexVal_hexDigit _ hmod]
    rw [Nat.div_add_mod, Char.ofNat_toNat]
    rfl

theorem pyUnquote_foldr (cs : List Char) (h : ∀ c ∈ cs, c.toNat < 128) :
    pyUnquoteChars (cs.foldr (fun c acc => pyQuoteChar c ++ acc) []) = cs := by
  induction cs with
  | nil => rfl
  | cons c rest ih =>
    rw [List.foldr_cons, pyUnquoteChars_quoteChar c (h c (List.mem_cons_self c rest))]
    rw [ih (fun x hx => h x (List.mem_cons_of_mem c hx))]

/-- `pyQuote` is injective on ASCII strings: percent-encoding loses no
information. -/
theorem pyQuote_inj (s1 s2 : String) (h1 : ∀ c ∈ s1.toList, c.toNat < 128)
    (h2 : ∀ c ∈ s2.toList, c.toNat < 128) (heq : pyQuote s1 = pyQuote s2) :
    s1 = s2 := by
  have hdata : s1.toList.foldr (fun c acc => pyQuoteChar c ++ acc) []
      = s2.toList.foldr (fun c acc => pyQuoteChar c ++ acc) [] := congrArg String.data heq
  have : s1.toList = s2.toList := by
    rw [← pyUnquote_foldr s1.toList h1, ← pyUnquote_foldr s2.toList h2, hdata]
  cases s1
  cases s2
  exact congrArg String.mk this

/-! ## Package-map lookup lemmas -/

/-- Any successful package-map lookup returns a recorded assignment. -/
theorem pkgMapFind_mem (m : PkgMap) (k : String) (u : Node)
    (h : pkgMapFind m k = some u) : (k, u) ∈ m := by
  unfold pkgMapFind at h
  cases hf : m.reverse.find? (fun p => p.1 == k) with
  | none => rw [hf] at h; cases h
  | some p =>
    rw [hf] at h
    have hp := List.find?_some hf
    have hmem : p ∈ m.reverse := List.mem_of_find?_eq_some hf
    have hk : p.1 = k := by simpa using hp
    have hu : p.2 = u := by simpa using h
    have : p = (k, u) := by
      cases p
      simp_all
    rw [← this]
    exact List.mem_reverse.mp hmem

/-- Lookup in a map built by mapping over entries returns the value of the
last entry whose key matches: Python dict assignments overwrite. -/
theorem pkgMapFind_map_eq {β : Type} (key : β → String) (val : β → Node) :
    ∀ (l : List β) (k : String),
      pkgMapFind (l.map (fun d => (key d, val d))) k
        = ((l.filter (fun d => key d == k)).getLast?).map val := by
  intro l
  induction l using List.reverseRecOn with
  | nil => intro k; rfl
  | append_singleton xs d ih =>
    intro k
    have hrev : (List.map (fun d => (key d, val d)) (xs ++ [d])).reverse
        = (key d, val d) :: (List.map (fun d => (key d, val d)) xs).reverse := by
      simp
    unfold pkgMapFind
    rw [hrev]
    by_cases hk : (key d == k) = true
    · rw [@List.find?_cons_of_pos _ (fun p => p.1 == k) (key d, val d) _ hk]
      simp [List.filter_append, hk, List.getLast?_concat]
    · rw [@List.find?_cons_of_neg _ (fun p => p.1 == k) (key d, val d) _ hk]
      have hfil : List.filter (fun x => key x == k) (xs ++ [d])
          = List.filter (fun x => key x == k) xs := by
        simp [List.filter_append, hk]
      rw [hfil]
      have h2 := ih k
      unfold pkgMapFind at h2
      exact h2

/-! ## Coordinator and contents-linking lemmas -/

/-- The count returned by `collect_parallel` is always the input length, on
both the fast path and the parallel path. -/
theorem collect_parallel_count {α : Type} (parallel : Bool) (chunk_size : Nat)
    (g : Graph) (packages : List α) (f : List α → Nat → Graph) :
    (BaseCollector.collect_parallel parallel chunk_size g packages f).2
      = packages.length := by
  unfold BaseCollector.collect_parallel
  split <;> rfl

/-- The graph returned by `collect_parallel` is the input graph followed by
the merged chunk graphs (and exactly the input graph on the fast path). -/
theorem collect_parallel_graph {α : Type} (parallel : Bool) (chunk_size : Nat)
    (g : Graph) (packages : List α) (f : List α → Nat → Graph) :
    (BaseCollector.collect_parallel parallel chunk_size g packages f).1
      = g ++
        (if !parallel || packages.length < chunk_size then []
         else (((BaseCollector.chunksOf chunk_size packages).enum).map
            (fun ci => f ci.2 ci.1)).flatten) := by
  unfold BaseCollector.collect_parallel
  split
  · rename_i h
    simp [h]
  · rename_i h
    simp only [h, if_neg]
    rw [show (fun (acc : Graph) (t : Graph) => acc ++ t)
        = (fun (acc : Graph) (t : Graph) => acc ++ (fun x : Graph => x) t) from rfl]
    rw [foldl_append_eq, List.map_id']

namespace DebianCollector

/-- Per-line contents processing is the flattened per-package-name
contribution of the line's last field. -/
theorem process_contents_line_mem (m : PkgMap) (line : String) :
    ∀ t ∈ process_contents_line m line,
      t.2.1 = debURI "fileName" ∧ ∃ k, pkgMapFind m k = some t.1 := by
  intro t ht
  unfold process_contents_line at ht
  dsimp only at ht
  split at ht
  · cases ht
  · rw [foldl_append_eq] at ht
    rw [List.nil_append] at ht
    rw [List.mem_flatten] at ht
    obtain ⟨l', hl', htl⟩ := ht
    rw [List.mem_map] at hl'
    obtain ⟨pkg_name, _, hpn⟩ := hl'
    subst hpn
    revert htl
    split
    · rename_i u hu
      intro htl
      rw [List.mem_singleton] at htl
      subst htl
      exact ⟨rfl, _, hu⟩
    · intro htl
      cases htl

/-- `_process_contents_single_threaded` factors as the input graph followed
by the per-line contributions. -/
theorem process_contents_single_threaded_eq (g : Graph) (lines : List String)
    (m : PkgMap) :
    process_contents_single_threaded g lines m
      = g ++ (lines.map (process_contents_line m)).flatten :=
  foldl_append_eq (process_contents_line m) lines g

/-- `_process_contents_chunk` is the per-line contribution of its chunk. -/
theorem process_contents_chunk_eq (lines_chunk : List String) (chunk_id : Nat)
    (m : PkgMap) :
    process_contents_chunk lines_chunk chunk_id m
      = (lines_chunk.map (process_contents_line m)).flatten := by
  have h := foldl_append_eq (process_contents_line m) lines_chunk []
  rw [List.nil_append] at h
  exact h

/-- Every triple produced by contents processing (single-threaded form) has
the `fileName` predicate and a subject taken from the package map. -/
theorem process_contents_single_threaded_mem (g : Graph) (lines : List String)
    (m : PkgMap) :
    ∀ t ∈ process_contents_single_threaded g lines m,
      t ∈ g ∨ (t.2.1 = debURI "fileName" ∧ ∃ k, pkgMapFind m k = some t.1) := by
  intro t ht
  rw [process_contents_single_threaded_eq, List.mem_append] at ht
  rcases ht with h | h
  · exact Or.inl h
  · rw [List.mem_flatten] at h
    obtain ⟨l', hl', htl⟩ := h
    rw [List.mem_map] at hl'
    obtain ⟨line, _, hline⟩ := hl'
    subst hline
    exact Or.inr (process_contents_line_mem m line t htl)

end DebianCollector

/-! ## Claim C4: dependency parsing examples -/

/-- C4: the dependency grammar parser maps "a (>= 1.0) | b, c" to exactly
[(a, ">= 1.0"), (c, null)] in that order (b dropped because only the first
alternative of an OR group is kept), maps "" to the empty sequence, and maps
"pkgname" to [(pkgname, null)]. -/
theorem claim_C4_dependency_parsing :
    DebianCollector.parse_dependency_string "a (>= 1.0) | b, c"
        = [("a", some ">= 1.0"), ("c", none)]
    ∧ DebianCollector.parse_dependency_string "" = []
    ∧ DebianCollector.parse_dependency_string "pkgname" = [("pkgname", none)] := by
  decide

/-! ## Claim C9: the node identity is not injective -/

/-- C9: the node identity mapping is not injective: the distinct pairs
("a-1", "2") and ("a", "1-2") produce the same Debian package URI, because
fields are joined with "-" before percent-encoding and "-" is itself a
permitted, unencoded character; the two records collapse into a single graph
node, and the name index holds that single node for both names. -/
theorem claim_C9_identity_collision :
    (("a-1", "2") : String × String) ≠ ("a", "1-2")
    ∧ DebianCollector.pkg_uri "a-1" "2" = DebianCollector.pkg_uri "a" "1-2"
    ∧ DebianCollector.build_package_map
        [dictOf [("Package", "a-1"), ("Version", "2")],
         dictOf [("Package", "a"), ("Version", "1-2")]]
      = [("a-1", DebianCollector.pkg_uri "a" "1-2"),
         ("a", DebianCollector.pkg_uri "a" "1-2")]
    ∧ (∀ t ∈ DebianCollector.process_packages_single_threaded []
          [dictOf [("Package", "a-1"), ("Version", "2")],
           dictOf [("Package", "a"), ("Version", "1-2")]] "bookworm",
        t.1 = DebianCollector.pkg_uri "a" "1-2") := by
  decide

/-! ## Claim C1: the coordinator's fast path emits nothing -/

/-- A concrete RPM package entry, as normalized by
`_get_primary_packages_data`. -/
def rpmPkgExample : RpmCollector.RpmPkgData :=
  { name := some "zlib", version := some "1.3", release := some "1",
    arch := some "x86_64", summary := some "zlib", description := some "",
    pkgid := some "abc123", format_element := none }

/-- C1 (failing input): `collect_parallel`'s fast path (parallel disabled, or
fewer items than the chunk size) returns the item count without invoking the
chunk processor and leaves the combined graph unchanged, while the parallel
path emits the chunk triples; the RPM collector invokes `collect_parallel`
directly with no single-threaded fallback, so on the fast path its package
phase adds no triples at all yet still reports one processed package. -/
theorem claim_C1_fast_path_drops_triples :
    RpmCollector.collect_packages_phase false 1000 ([] : Graph) [rpmPkgExample] = ([], 1)
    ∧ (RpmCollector.collect_packages_phase true 1 ([] : Graph) [rpmPkgExample]).1
        = RpmCollector.process_package_chunk [rpmPkgExample] 0
    ∧ RpmCollector.process_package_chunk [rpmPkgExample] 0 ≠ ([] : Graph)
    ∧ (RpmCollector.collect_packages_phase false 1000 ([] : Graph) [rpmPkgExample]).2 = 1 := by
  decide

/-! ## Claim C2: record rejection -/

/-- A concrete RPM primary-metadata package element with no `<name>` child. -/
def rpmNoNameElem : RpmCollector.XmlPackageElem :=
  { nameText := none, versionElem := some { ver := some "1", rel := some "2" },
    archText := some (some "x86_64"), summaryText := none, descriptionText := none,
    checksumText := some (some "cafe"), formatElem := none }

/-- C2 (counterexample): an RPM primary-metadata package element lacking a
name field is NOT rejected by normalization: the missing field becomes the
empty string, the entry still produces a node identity and triples, and it
appears in the checksum-to-URI map used for manifest linking. -/
theorem claim_C2_counterexample :
    RpmCollector.get_primary_packages_data [rpmNoNameElem]
      = [{ name := some "", version := some "1", release := some "2",
           arch := some "x86_64", summary := some "", description := some "",
           pkgid := some "cafe", format_element := none }]
    ∧ RpmCollector.build_package_map (RpmCollector.get_primary_packages_data [rpmNoNameElem])
      = [(some "cafe", RpmCollector.rpmURI "-1-2.x86_64")]
    ∧ RpmCollector.rpmMapFind
        (RpmCollector.build_package_map (RpmCollector.get_primary_packages_data [rpmNoNameElem]))
        (some "cafe") = some (RpmCollector.rpmURI "-1-2.x86_64")
    ∧ RpmCollector.process_package_chunk
        (RpmCollector.get_primary_packages_data [rpmNoNameElem]) 0 ≠ ([] : Graph) := by
  decide

/-- C2 (amended): a Debian stanza lacking Package or Version is rejected by
normalization — every entry of `packages_data` has both fields, and every
name-index entry comes from such an accepted entry — while RPM normalization
never rejects: every primary-metadata element yields a `packages_data` record
and a checksum-keyed map assignment, with missing fields defaulted. -/
theorem claim_C2_record_rejection :
    (∀ content : String, ∀ d ∈ DebianCollector.get_packages_data content,
      dictContains d "Package" = true ∧ dictContains d "Version" = true)
    ∧ (∀ (content name : String) (u : Node),
        pkgMapFind (DebianCollector.build_package_map
          (DebianCollector.get_packages_data content)) name = some u →
        ∃ d ∈ DebianCollector.get_packages_data content,
          (dictFind d "Package").getD "" = name
          ∧ u = DebianCollector.pkg_uri ((dictFind d "Package").getD "")
              ((dictFind d "Version").getD ""))
    ∧ (∀ packages : List RpmCollector.XmlPackageElem,
        (RpmCollector.get_primary_packages_data packages).length = packages.length
        ∧ (RpmCollector.build_package_map
            (RpmCollector.get_primary_packages_data packages)).length = packages.length) := by
  refine ⟨?_, ?_, ?_⟩
  · intro content d hd
    unfold DebianCollector.get_packages_data at hd
    have := (List.mem_filter.mp hd).2
    exact ⟨(Bool.and_eq_true _ _ |>.mp this).1, (Bool.and_eq_true _ _ |>.mp this).2⟩
  · intro content name u hfind
    have hmem := pkgMapFind_mem _ _ _ hfind
    unfold DebianCollector.build_package_map at hmem
    rw [List.mem_map] at hmem
    obtain ⟨d, hd, hdm⟩ := hmem
    refine ⟨d, hd, ?_, ?_⟩
    · exact congrArg Prod.fst hdm
    · have h2 := congrArg Prod.snd hdm
      dsimp at h2
      exact h2.symm
  · intro packages
    constructor
    · unfold RpmCollector.get_primary_packages_data
      exact List.length_map _ _
    · unfold RpmCollector.build_package_map RpmCollector.get_primary_packages_data
      rw [List.length_map, List.length_map]

/-- C2 (witness): the rejection and index-provenance statements hold on the
concrete stanza "Package: a\nVersion: 1". -/
theorem claim_C2_record_rejection_witness :
    (dictContains (dictOf [("Package", "a"), ("Version", "1")]) "Package" = true
      ∧ dictContains (dictOf [("Package", "a"), ("Version", "1")]) "Version" = true)
    ∧ ∃ d ∈ DebianCollector.get_packages_data "Package: a\nVersion: 1",
        (dictFind d "Package").getD "" = "a"
        ∧ DebianCollector.pkg_uri "a" "1"
          = DebianCollector.pkg_uri ((dictFind d "Package").getD "")
              ((dictFind d "Version").getD "") :=
  ⟨claim_C2_record_rejection.1 "Package: a\nVersion: 1"
      (dictOf [("Package", "a"), ("Version", "1")]) (by decide),
   claim_C2_record_rejection.2.1 "Package: a\nVersion: 1" "a"
      (DebianCollector.pkg_uri "a" "1") (by decide)⟩

/-! ## Claim C3: dependency fields and flat attribute emission -/

/-- Uris in the Debian namespace are distinct for distinct suffixes. -/
theorem debURI_inj (x y : String) (h : DebianCollector.debURI x = DebianCollector.debURI y) :
    x = y := by
  unfold DebianCollector.debURI at h
  injection h with h1
  have h2 := congrArg String.data h1
  rw [String.data_append, String.data_append] at h2
  have h3 := List.append_cancel_left h2
  cases x
  cases y
  exact congrArg String.mk h3

/-- C3 (counterexample): for the record {Package: a, Version: 1, Depends: b},
the single-threaded emitter and the chunk processor both add the flat literal
triple (pkg, deb:depends, "b") in addition to the structured dependency
blank node, so the pre-structured dependency field IS also emitted as a flat
literal attribute, contrary to the claim. -/
theorem claim_C3_counterexample :
    (DebianCollector.pkg_uri "a" "1", DebianCollector.debURI "depends", Node.lit "b")
      ∈ DebianCollector.process_packages_single_threaded []
          [dictOf [("Package", "a"), ("Version", "1"), ("Depends", "b")]] "bookworm"
    ∧ (DebianCollector.pkg_uri "a" "1", DebianCollector.debURI "depends", Node.bnode 0 0)
      ∈ DebianCollector.process_packages_single_threaded []
          [dictOf [("Package", "a"), ("Version", "1"), ("Depends", "b")]] "bookworm"
    ∧ (DebianCollector.pkg_uri "a" "1", DebianCollector.debURI "depends", Node.lit "b")
      ∈ DebianCollector.process_package_chunk
          [dictOf [("Package", "a"), ("Version", "1"), ("Depends", "b")]] 0 "bookworm" := by
  decide

/-- C3 (amended): in the single-threaded and chunked emitters, only the
identity fields (normalized property names "package" and "version") are
excluded from generic flat attribute emission; every other stanza field —
including the pre-structured dependency fields Depends, Recommends, Suggests,
etc. — is also emitted as a flat literal attribute triple, alongside its
structured dependency nodes. -/
theorem claim_C3_flat_attribute_exclusion :
    ∀ (u : Node) (d : Dict) (k v : String), (k, v) ∈ d →
      ((u, DebianCollector.debURI (DebianCollector.prop_name_of k), Node.lit v)
          ∈ DebianCollector.flat_attribute_triples u d
        ↔ DebianCollector.prop_name_of k ≠ "package"
          ∧ DebianCollector.prop_name_of k ≠ "version") := by
  intro u d k v hkv
  unfold DebianCollector.flat_attribute_triples
  rw [foldl_append_eq, List.nil_append]
  constructor
  · intro hmem
    rw [List.mem_flatten] at hmem
    obtain ⟨l', hl', htl⟩ := hmem
    rw [List.mem_map] at hl'
    obtain ⟨kv, hkvmem, hkveq⟩ := hl'
    subst hkveq
    revert htl
    split
    · rename_i hcond
      intro htl
      rw [List.mem_singleton] at htl
      have hpred : DebianCollector.debURI (DebianCollector.prop_name_of k)
          = DebianCollector.debURI (DebianCollector.prop_name_of kv.1) :=
        congrArg (fun tr : Triple => tr.2.1) htl
      rw [debURI_inj _ _ hpred]
      exact hcond
    · intro htl
      cases htl
  · intro hcond
    rw [List.mem_flatten]
    refine ⟨_, List.mem_map_of_mem _ hkv, ?_⟩
    rw [if_pos hcond]
    exact List.mem_singleton.mpr rfl

/-- C3 (witness): the flat-emission characterization applied to the field
("Depends", "b"). -/
theorem claim_C3_flats_witness :
    (("Depends", "b") : String × String) ∈ ([("Depends", "b")] : Dict)
    ∧ ((Node.uri "u", DebianCollector.debURI (DebianCollector.prop_name_of "Depends"), Node.lit "b")
        ∈ DebianCollector.flat_attribute_triples (Node.uri "u") [("Depends", "b")]
      ↔ DebianCollector.prop_name_of "Depends" ≠ "package"
        ∧ DebianCollector.prop_name_of "Depends" ≠ "version") :=
  ⟨by decide,
   claim_C3_flat_attribute_exclusion (Node.uri "u") [("Depends", "b")] "Depends" "b" (by decide)⟩

/-! ## Claim C5: manifest linking -/

/-- C5: with name index {"foo": u} and manifest line
"/usr/bin/foo  somegroup/foo,bar", exactly one file-ownership triple is
emitted, attaching the path to u; "bar", absent from the index, is silently
skipped; lines with fewer than two whitespace-separated fields are skipped;
the chunked contents processor behaves identically. -/
theorem claim_C5_manifest_linking :
    (∀ u : Node,
      DebianCollector.process_contents_line [("foo", u)] "/usr/bin/foo  somegroup/foo,bar"
        = [(u, DebianCollector.debURI "fileName", Node.lit "/usr/bin/foo")])
    ∧ (∀ (m : PkgMap) (line : String),
        (split_whitespace (py_strip line)).length < 2 →
        DebianCollector.process_contents_line m line = [])
    ∧ (∀ (u : Node) (chunk_id : Nat),
      DebianCollector.process_contents_chunk ["/usr/bin/foo  somegroup/foo,bar"]
          chunk_id [("foo", u)]
        = [(u, DebianCollector.debURI "fileName", Node.lit "/usr/bin/foo")]) := by
  refine ⟨fun u => rfl, ?_, fun u cid => rfl⟩
  intro m line h
  unfold DebianCollector.process_contents_line
  dsimp only
  rw [if_pos h]

/-- C5 (witness): a one-field line is skipped. -/
theorem claim_C5_manifest_linking_witness :
    (split_whitespace (py_strip "lonefield")).length < 2
    ∧ DebianCollector.process_contents_line [] "lonefield" = [] :=
  ⟨by decide, claim_C5_manifest_linking.2.1 [] "lonefield" (by decide)⟩

/-! ## Claim C7: the dependency parser is total -/

/-- Flattening singleton-or-empty per-item contributions is `filterMap`. -/
theorem flatten_map_toList {α β : Type} (f : α → Option β) :
    ∀ l : List α, (l.map (fun x => (f x).toList)).flatten = l.filterMap f := by
  intro l
  induction l with
  | nil => rfl
  | cons x xs ih => cases hfx : f x <;> simp [List.filterMap_cons, hfx, ih]

/-- C7: for every input string the dependency parser terminates normally with
a value — it is exactly the filterMap of the per-clause pattern match over
the comma-separated clauses, so clauses whose first alternative fails the
pattern are dropped, and an input with no matching clauses yields the empty
sequence. -/
theorem claim_C7_parser_never_fails :
    ∀ s : String,
      DebianCollector.parse_dependency_string s
        = (py_split_char ',' s).filterMap
            (fun part => DebianCollector.match_dep_pattern (DebianCollector.first_alternative part))
      ∧ ((∀ part ∈ py_split_char ',' s,
            DebianCollector.match_dep_pattern (DebianCollector.first_alternative part) = none) →
          DebianCollector.parse_dependency_string s = []) := by
  have hchar : ∀ s : String, DebianCollector.parse_dependency_string s
      = (py_split_char ',' s).filterMap
          (fun part => DebianCollector.match_dep_pattern (DebianCollector.first_alternative part)) := by
    intro s
    unfold DebianCollector.parse_dependency_string
    rw [show (fun (dependencies : List (String × Option String)) part =>
          dependencies ++
            (match DebianCollector.match_dep_pattern (DebianCollector.first_alternative part) with
             | some d => [d]
             | none => []))
        = (fun (dependencies : List (String × Option String)) part =>
            dependencies ++
              (DebianCollector.match_dep_pattern (DebianCollector.first_alternative part)).toList)
        from by
          funext dependencies part
          cases DebianCollector.match_dep_pattern (DebianCollector.first_alternative part) <;> rfl]
    rw [foldl_append_eq, List.nil_append, flatten_map_toList]
  intro s
  refine ⟨hchar s, fun h => ?_⟩
  rw [hchar s]
  exact List.filterMap_eq_nil_iff.mpr h

/-- C7 (witness): on the unparseable input "?" every clause fails the
pattern and the parser returns the empty sequence. -/
theorem claim_C7_witness :
    (∀ part ∈ py_split_char ',' "?",
      DebianCollector.match_dep_pattern (DebianCollector.first_alternative part) = none)
    ∧ DebianCollector.parse_dependency_string "?" = [] :=
  ⟨by decide, (claim_C7_parser_never_fails "?").2 (by decide)⟩

/-! ## Claim C6: degradation on a failed Contents fetch -/

namespace DebianCollector

/-- Contents chunk graphs carry only `fileName` triples. -/
theorem process_contents_chunk_wrapper_pred
    (data_chunk : List (String × PkgMap)) (chunk_id : Nat) :
    ∀ t ∈ process_contents_chunk_wrapper data_chunk chunk_id,
      t.2.1 = debURI "fileName" := by
  intro t ht
  unfold process_contents_chunk_wrapper at ht
  rw [process_contents_chunk_eq, List.mem_flatten] at ht
  obtain ⟨l', hl', htl⟩ := ht
  rw [List.mem_map] at hl'
  obtain ⟨line, _, hline⟩ := hl'
  subst hline
  exact (process_contents_line_mem _ line t htl).1

/-- The contents-linking stage, on either of its paths, only appends
`fileName` triples to the incoming graph. -/
theorem process_contents_body_eq (parallel : Bool) (chunk_size : Nat) (g : Graph)
    (lines : List String) (m : PkgMap) :
    ∃ extra : Graph, process_contents_body parallel chunk_size g lines m = g ++ extra
      ∧ ∀ t ∈ extra, t.2.1 = debURI "fileName" := by
  unfold process_contents_body
  split
  · refine ⟨(lines.map (process_contents_line m)).flatten,
      process_contents_single_threaded_eq g lines m, ?_⟩
    intro t ht
    rw [List.mem_flatten] at ht
    obtain ⟨l', hl', htl⟩ := ht
    rw [List.mem_map] at hl'
    obtain ⟨line, _, hline⟩ := hl'
    subst hline
    exact (process_contents_line_mem m line t htl).1
  · rw [collect_parallel_graph]
    refine ⟨_, rfl, ?_⟩
    intro t ht
    revert ht
    split
    · intro ht
      cases ht
    · intro ht
      rw [List.mem_flatten] at ht
      obtain ⟨l', hl', htl⟩ := ht
      rw [List.mem_map] at hl'
      obtain ⟨ci, _, hci⟩ := hl'
      subst hci
      exact process_contents_chunk_wrapper_pred ci.2 ci.1 t htl

/-- The contents-linking stage preserves every triple already in the graph. -/
theorem process_contents_body_mono (parallel : Bool) (chunk_size : Nat) (g : Graph)
    (lines : List String) (m : PkgMap) (t : Triple) (ht : t ∈ g) :
    t ∈ process_contents_body parallel chunk_size g lines m := by
  obtain ⟨extra, heq, _⟩ := process_contents_body_eq parallel chunk_size g lines m
  rw [heq]
  exact List.mem_append_left _ ht

end DebianCollector

/-- C6: for every Debian collection run in which the optional Contents fetch
fails with a caught HTTP error, collect() returns the same processed-package
count as the run in which the fetch succeeds; the failing run's graph differs
from the successful run's graph only by the absence of file-ownership
(`fileName`) triples. -/
theorem claim_C6_manifest_degradation :
    ∀ (parallel : Bool) (chunk_size : Nat)
      (codename suite origin packagesContent cc : String) (g : Graph),
      (DebianCollector.collect parallel chunk_size codename suite origin
          packagesContent none g).2
        = (DebianCollector.collect parallel chunk_size codename suite origin
            packagesContent (some cc) g).2
      ∧ ∃ extra : Graph,
          (DebianCollector.collect parallel chunk_size codename suite origin
              packagesContent (some cc) g).1
            = (DebianCollector.collect parallel chunk_size codename suite origin
                packagesContent none g).1 ++ extra
          ∧ ∀ t ∈ extra, t.2.1 = DebianCollector.debURI "fileName" := by
  intro parallel chunk_size codename suite origin pc cc g
  constructor
  · rfl
  · unfold DebianCollector.collect
    dsimp only
    exact DebianCollector.process_contents_body_eq parallel chunk_size _ _ _

/-- C6 (witness): the degradation statement at a concrete configuration. -/
theorem claim_C6_witness :
    (DebianCollector.collect false 1000 "c" "s" "o" "Package: a\nVersion: 1" none []).2
      = (DebianCollector.collect false 1000 "c" "s" "o" "Package: a\nVersion: 1"
          (some "/f a") []).2
    ∧ ∃ extra : Graph,
        (DebianCollector.collect false 1000 "c" "s" "o" "Package: a\nVersion: 1"
            (some "/f a") []).1
          = (DebianCollector.collect false 1000 "c" "s" "o" "Package: a\nVersion: 1"
              none []).1 ++ extra
        ∧ ∀ t ∈ extra, t.2.1 = DebianCollector.debURI "fileName" :=
  claim_C6_manifest_degradation false 1000 "c" "s" "o" "Package: a\nVersion: 1" "/f a" []

/-! ## Claim C8: monotonic accumulation -/

/-- C8: every pipeline operation of one collect() invocation — distribution
metadata, package emission (single-threaded), the coordinator's chunk merge,
manifest linking, and the whole collect() — only adds triples: any triple
present in the combined graph before the operation is still present after. -/
theorem claim_C8_monotonic_accumulation :
    ∀ (t : Triple) (g : Graph), t ∈ g →
      (∀ codename suite origin : String,
        t ∈ DebianCollector.add_distribution_metadata g codename suite origin)
      ∧ (∀ (packages_data : List Dict) (codename : String),
          t ∈ DebianCollector.process_packages_single_threaded g packages_data codename)
      ∧ (∀ (α : Type) (parallel : Bool) (chunk_size : Nat) (packages : List α)
            (f : List α → Nat → Graph),
          t ∈ (BaseCollector.collect_parallel parallel chunk_size g packages f).1)
      ∧ (∀ (lines : List String) (m : PkgMap),
          t ∈ DebianCollector.process_contents_single_threaded g lines m)
      ∧ (∀ (parallel : Bool) (chunk_size : Nat) (codename suite origin pc : String)
            (contents : Option String),
          t ∈ (DebianCollector.collect parallel chunk_size codename suite origin
              pc contents g).1) := by
  intro t g hg
  have hadd : ∀ (g' : Graph) (c s o : String), t ∈ g' →
      t ∈ DebianCollector.add_distribution_metadata g' c s o := by
    intro g' c s o hm
    unfold DebianCollector.add_distribution_metadata
    dsimp only
    split
    · exact List.mem_append_left _ (List.mem_append_left _ hm)
    · exact List.mem_append_left _ hm
  have hpkg : ∀ (g' : Graph) (pd : List Dict) (c : String), t ∈ g' →
      t ∈ DebianCollector.process_packages_single_threaded g' pd c := by
    intro g' pd c hm
    unfold DebianCollector.process_packages_single_threaded
    rw [foldl_counter_eq]
    exact List.mem_append_left _ hm
  have hcp : ∀ (α : Type) (g' : Graph) (p : Bool) (cs : Nat) (pk : List α)
      (f : List α → Nat → Graph), t ∈ g' →
      t ∈ (BaseCollector.collect_parallel p cs g' pk f).1 := by
    intro α g' p cs pk f hm
    rw [collect_parallel_graph]
    exact List.mem_append_left _ hm
  have hct : ∀ (g' : Graph) (lines : List String) (m : PkgMap), t ∈ g' →
      t ∈ DebianCollector.process_contents_single_threaded g' lines m := by
    intro g' lines m hm
    rw [DebianCollector.process_contents_single_threaded_eq]
    exact List.mem_append_left _ hm
  refine ⟨fun c s o => hadd g c s o hg, fun pd c => hpkg g pd c hg,
    fun α p cs pk f => hcp α g p cs pk f hg, fun lines m => hct g lines m hg, ?_⟩
  intro p cs c s o pc contents
  unfold DebianCollector.collect
  dsimp only
  have hr : t ∈ (if !p || (DebianCollector.get_packages_data pc).length < cs then
      (DebianCollector.process_packages_single_threaded
        (DebianCollector.add_distribution_metadata g c s o)
        (DebianCollector.get_packages_data pc) c,
       (DebianCollector.get_packages_data pc).length)
    else
      BaseCollector.collect_parallel p cs
        (DebianCollector.add_distribution_metadata g c s o)
        ((DebianCollector.get_packages_data pc).map (fun pkg_data => (pkg_data, c, s, o)))
        DebianCollector.process_package_chunk_wrapper).1 := by
    split
    · exact hpkg _ _ _ (hadd g c s o hg)
    · exact hcp _ _ _ _ _ _ (hadd g c s o hg)
  cases contents with
  | none => exact hr
  | some cc => exact DebianCollector.process_contents_body_mono p cs _ _ _ t hr

/-- C8 (witness): a triple already present survives each operation at a
concrete configuration. -/
theorem claim_C8_witness :
    (Node.uri "s", Node.uri "q", Node.lit "o")
        ∈ DebianCollector.add_distribution_metadata
            [(Node.uri "s", Node.uri "q", Node.lit "o")] "c" "s" "o"
    ∧ (Node.uri "s", Node.uri "q", Node.lit "o")
        ∈ DebianCollector.process_packages_single_threaded
            [(Node.uri "s", Node.uri "q", Node.lit "o")] [] "c"
    ∧ (Node.uri "s", Node.uri "q", Node.lit "o")
        ∈ (BaseCollector.collect_parallel false 1000
            [(Node.uri "s", Node.uri "q", Node.lit "o")] ([] : List Nat)
            (fun _ _ => [])).1
    ∧ (Node.uri "s", Node.uri "q", Node.lit "o")
        ∈ DebianCollector.process_contents_single_threaded
            [(Node.uri "s", Node.uri "q", Node.lit "o")] [] []
    ∧ (Node.uri "s", Node.uri "q", Node.lit "o")
        ∈ (DebianCollector.collect false 1000 "c" "s" "o" "" none
            [(Node.uri "s", Node.uri "q", Node.lit "o")]).1 :=
  ⟨(claim_C8_monotonic_accumulation (Node.uri "s", Node.uri "q", Node.lit "o")
      [(Node.uri "s", Node.uri "q", Node.lit "o")] (by decide)).1 "c" "s" "o",
   (claim_C8_monotonic_accumulation (Node.uri "s", Node.uri "q", Node.lit "o")
      [(Node.uri "s", Node.uri "q", Node.lit "o")] (by decide)).2.1 [] "c",
   (claim_C8_monotonic_accumulation (Node.uri "s", Node.uri "q", Node.lit "o")
      [(Node.uri "s", Node.uri "q", Node.lit "o")] (by decide)).2.2.1 Nat false 1000 []
      (fun _ _ => []),
   (claim_C8_monotonic_accumulation (Node.uri "s", Node.uri "q", Node.lit "o")
      [(Node.uri "s", Node.uri "q", Node.lit "o")] (by decide)).2.2.2.1 [] [],
   (claim_C8_monotonic_accumulation (Node.uri "s", Node.uri "q", Node.lit "o")
      [(Node.uri "s", Node.uri "q", Node.lit "o")] (by decide)).2.2.2.2 false 1000
      "c" "s" "o" "" none⟩

/-! ## Claim C10: the name index keeps the last entry per name -/

/-- Prepending per-character encodings factors over the tail. -/
theorem foldr_quote_factor (X : List Char) :
    ∀ cs : List Char,
      cs.foldr (fun c acc => pyQuoteChar c ++ acc) X
        = cs.foldr (fun c acc => pyQuoteChar c ++ acc) [] ++ X := by
  intro cs
  induction cs with
  | nil => simp
  | cons c rest ih => simp [ih]

/-- Percent-encoding distributes over string concatenation. -/
theorem pyQuote_append (s u : String) : pyQuote (s ++ u) = pyQuote s ++ pyQuote u := by
  unfold pyQuote
  have h1 : (s ++ u).toList = s.toList ++ u.toList := String.data_append s u
  rw [h1, List.foldr_append, foldr_quote_factor]
  rfl

/-- Two packages with the same name but different (ASCII) versions get
distinct node identities. -/
theorem pkg_uri_ne_of_version_ne (name v1 v2 : String)
    (h1 : ∀ c ∈ v1.toList, c.toNat < 128) (h2 : ∀ c ∈ v2.toList, c.toNat < 128)
    (hne : v1 ≠ v2) :
    DebianCollector.pkg_uri name v1 ≠ DebianCollector.pkg_uri name v2 := by
  intro heq
  unfold DebianCollector.pkg_uri at heq
  have hq : pyQuote (name ++ "-" ++ v1) = pyQuote (name ++ "-" ++ v2) :=
    debURI_inj _ _ heq
  rw [pyQuote_append (name ++ "-") v1, pyQuote_append (name ++ "-") v2] at hq
  have hdq := congrArg String.data hq
  rw [String.data_append, String.data_append] at hdq
  have h3 := List.append_cancel_left hdq
  have h4 : pyQuote v1 = pyQuote v2 := by
    cases hv1 : pyQuote v1
    cases hv2 : pyQuote v2
    rw [hv1, hv2] at h3
    exact congrArg String.mk h3
  exact hne (pyQuote_inj v1 v2 h1 h2 h4)

/-- C10: when the primary metadata has several entries with the same name,
the Debian name index maps that name to the URI of the last such entry in
input order; every file-ownership triple's subject is a looked-up index
value, so manifest triples for that name attach only to the last-seen
version's node; and (for ASCII versions) the earlier versions' nodes are
genuinely different nodes. -/
theorem claim_C10_last_entry_wins :
    (∀ (data : List Dict) (name : String),
      pkgMapFind (DebianCollector.build_package_map data) name
        = ((data.filter (fun d => (dictFind d "Package").getD "" == name)).getLast?).map
            (fun d => DebianCollector.pkg_uri ((dictFind d "Package").getD "")
                ((dictFind d "Version").getD "")))
    ∧ (∀ (m : PkgMap) (lines : List String) (t : Triple),
        t ∈ DebianCollector.process_contents_single_threaded [] lines m →
        t.2.1 = DebianCollector.debURI "fileName" ∧ ∃ k, pkgMapFind m k = some t.1)
    ∧ (∀ (name v1 v2 : String),
        (∀ c ∈ v1.toList, c.toNat < 128) → (∀ c ∈ v2.toList, c.toNat < 128) →
        v1 ≠ v2 →
        DebianCollector.pkg_uri name v1 ≠ DebianCollector.pkg_uri name v2) := by
  refine ⟨?_, ?_, pkg_uri_ne_of_version_ne⟩
  · intro data name
    unfold DebianCollector.build_package_map
    exact pkgMapFind_map_eq (fun d => (dictFind d "Package").getD "")
      (fun d => DebianCollector.pkg_uri ((dictFind d "Package").getD "")
        ((dictFind d "Version").getD "")) data name
  · intro m lines t ht
    rcases DebianCollector.process_contents_single_threaded_mem [] lines m t ht with h | h
    · cases h
    · exact h

/-- Two entries with the same name "p" and versions "1" then "2". -/
def c10data : List Dict :=
  [dictOf [("Package", "p"), ("Version", "1")], dictOf [("Package", "p"), ("Version", "2")]]

/-- C10 (witness): on two same-name entries the index resolves to the second
entry's URI, a manifest triple for that name attaches to it, and the first
entry's node is distinct. -/
theorem claim_C10_witness :
    pkgMapFind (DebianCollector.build_package_map c10data) "p"
      = some (DebianCollector.pkg_uri "p" "2")
    ∧ ((DebianCollector.pkg_uri "p" "2", DebianCollector.debURI "fileName",
          Node.lit "/f").2.1 = DebianCollector.debURI "fileName"
        ∧ ∃ k, pkgMapFind [("p", DebianCollector.pkg_uri "p" "2")] k
            = some (DebianCollector.pkg_uri "p" "2", DebianCollector.debURI "fileName",
                Node.lit "/f").1)
    ∧ DebianCollector.pkg_uri "p" "1" ≠ DebianCollector.pkg_uri "p" "2" :=
  ⟨(claim_C10_last_entry_wins.1 c10data "p").trans (by decide),
   claim_C10_last_entry_wins.2.1 [("p", DebianCollector.pkg_uri "p" "2")] ["/f p"]
     (DebianCollector.pkg_uri "p" "2", DebianCollector.debURI "fileName", Node.lit "/f")
     (by decide),
   claim_C10_last_entry_wins.2.2 "p" "1" "2" (by decide) (by decide) (by decide)⟩

/-- C9 (witness): the all-subjects-collapse statement applied to the first
emitted triple of the colliding pair. -/
theorem claim_C9_witness :
    (DebianCollector.pkg_uri "a-1" "2", rdfType,
        DebianCollector.debURI "DebianPackage").1
      = DebianCollector.pkg_uri "a" "1-2" :=
  claim_C9_identity_collision.2.2.2
    (DebianCollector.pkg_uri "a-1" "2", rdfType, DebianCollector.debURI "DebianPackage")
    (by decide)
